import Mathlib

/-!
Shallow embedding of the VaR engine of quinthelix/findemo
(backend/app/services/var_engine.py, backend/app/services/exposure_service.py,
backend/app/utils/date_utils.py).

Conventions of the embedding:
* Python `float` is modelled as `ℝ`; `numpy` vector/matrix values as `List ℝ`
  and `List (List ℝ)`.
* Python `datetime.date` is modelled by `PyDate` (year/month/day as `ℤ`),
  compared lexicographically as Python compares dates, with
  `PyDate.toOrdinal` giving the proleptic-Gregorian day number so that
  `(d1 - d2).days` becomes `d1.toOrdinal - d2.toOrdinal`.
* Python `dict` is modelled as an insertion-ordered association list `Dict`;
  `dictSet` updates an existing key in place or appends a new one, exactly
  like dict assignment, `dictGet`/`dictGetD` model `d[k]` / `d.get(k, v)`.
* Code that can raise a Python exception is modelled with `Option`
  (`none` = the call raises).
-/

namespace Findemo

/-! ## Python dict as insertion-ordered association list -/

/-- Model of a Python `dict`: insertion-ordered association list. -/
abbrev Dict (α β : Type) := List (α × β)

/-- `d.get(k)`: first (unique, by construction) binding of `k`. -/
def dictGet {α β : Type} [DecidableEq α] (d : Dict α β) (k : α) : Option β :=
  (d.find? (fun kv => kv.1 = k)).map (·.2)

/-- `d.get(k, v0)`. -/
def dictGetD {α β : Type} [DecidableEq α] (d : Dict α β) (k : α) (v0 : β) : β :=
  (dictGet d k).getD v0

/-- `d[k] = v`: replace the binding in place if `k` is present (keys are
    unique in every dict the engine builds), else append. -/
def dictSet {α β : Type} [DecidableEq α] : Dict α β → α → β → Dict α β
  | [], k, v => [(k, v)]
  | kv :: rest, k, v =>
    if kv.1 = k then (k, v) :: rest else kv :: dictSet rest k v

/-! ## Dates (`datetime.date`) -/

/-- Model of `datetime.date`. Fields are `ℤ` for convenient arithmetic. -/
structure PyDate where
  year : ℤ
  month : ℤ
  day : ℤ
deriving DecidableEq, Repr

/-- Python date comparison `d1 <= d2` (lexicographic on (year, month, day)). -/
def dateLe (a b : PyDate) : Bool :=
  a.year < b.year ∨ (a.year = b.year ∧
    (a.month < b.month ∨ (a.month = b.month ∧ a.day ≤ b.day)))

/-- Python date comparison `d1 < d2`. -/
def dateLt (a b : PyDate) : Bool :=
  a.year < b.year ∨ (a.year = b.year ∧
    (a.month < b.month ∨ (a.month = b.month ∧ a.day < b.day)))

/-- Gregorian leap-year test. -/
def isLeap (y : ℤ) : Bool := y % 4 = 0 ∧ (y % 100 ≠ 0 ∨ y % 400 = 0)

/-- Days in the months of a non-leap year, 1-indexed via `List.getD`. -/
def monthLengths : List ℤ := [31, 28, 31, 30, 31, 30, 31, 31, 30, 31, 30, 31]

/-- Number of days in month `m` of year `y`. -/
def daysInMonth (y m : ℤ) : ℤ :=
  if m = 2 ∧ isLeap y then 29 else monthLengths.getD (m - 1).toNat 31

/-- Cumulative days before month `m` (1-indexed) in year `y`. -/
def daysBeforeMonth (y m : ℤ) : ℤ :=
  (monthLengths.take (m - 1).toNat).sum + (if 2 < m ∧ isLeap y then 1 else 0)

/-- `date.toordinal()`: proleptic-Gregorian day number, day 1 = 0001-01-01. -/
def PyDate.toOrdinal (d : PyDate) : ℤ :=
  365 * (d.year - 1) + (d.year - 1).fdiv 4 - (d.year - 1).fdiv 100
    + (d.year - 1).fdiv 400 + daysBeforeMonth d.year d.month + d.day

/-- Month index `12*year + (month-1)`; month starts are ordered by this. -/
def monthIndex (d : PyDate) : ℤ := 12 * d.year + (d.month - 1)

/-- The month-start date with month index `i`. -/
def dateOfMonthIndex (i : ℤ) : PyDate := ⟨i.fdiv 12, i.emod 12 + 1, 1⟩

/-- `dateutil` month addition: shift the month, clamping the day to the
    length of the target month. -/
def addMonths (d : PyDate) (n : ℤ) : PyDate :=
  let i := monthIndex d + n
  let y := i.fdiv 12
  let m := i.emod 12 + 1
  ⟨y, m, min d.day (daysInMonth y m)⟩

/-- `relativedelta(t, f)` collapsed to fractional months, as used by
    `months_until`: total months plus residual days over 30.  The
    `dateutil` normalization loop adjusts the raw month-field difference at
    most once for pure dates, which the two conditionals reproduce. -/
noncomputable def monthsUntil (f t : PyDate) : ℝ :=
  let m0 := (t.year - f.year) * 12 + (t.month - f.month)
  let m : ℤ :=
    if dateLt t f then (if dateLt (addMonths f m0) t then m0 + 1 else m0)
    else (if dateLt t (addMonths f m0) then m0 - 1 else m0)
  (m : ℝ) + ((t.toOrdinal - (addMonths f m).toOrdinal : ℤ) : ℝ) / 30

/-! ## `date_utils.py` -/

/-- `get_month_start`: first day of the month of `d`. -/
def getMonthStart (d : PyDate) : PyDate := ⟨d.year, d.month, 1⟩

/-- `get_months_between`: month starts from `get_month_start start_date` to
    `get_month_start end_date` inclusive (the `while current <= end` loop,
    stepping by one month). -/
def getMonthsBetween (startDate endDate : PyDate) : List PyDate :=
  let a := monthIndex (getMonthStart startDate)
  let b := monthIndex (getMonthStart endDate)
  (List.range (b - a + 1).toNat).map (fun i : ℕ => dateOfMonthIndex (a + (i : ℤ)))

/-! ## Data model (`models/database.py`, the fields the engine reads) -/

/-- A `Purchase` row (the fields the engine reads). -/
structure Purchase where
  customer_id : String
  commodity_id : String
  quantity : ℝ
  delivery_start_date : PyDate
  delivery_end_date : PyDate
  price_type : String
  payment_date : Option PyDate
  purchase_price : ℝ

/-- An `ExposureBucket` row (the fields the engine reads). -/
structure ExposureBucket where
  customer_id : String
  commodity_id : String
  bucket_month : PyDate
  quantity : ℝ

/-! ## `exposure_service.py` -/

/-- `create_exposure_buckets_for_purchase`: one bucket per month of the
    delivery window, quantity split evenly; zero months ⇒ no buckets. -/
noncomputable def createExposureBucketsForPurchase (p : Purchase) : List ExposureBucket :=
  let months := getMonthsBetween p.delivery_start_date p.delivery_end_date
  if months = [] then []
  else
    let quantityPerMonth := p.quantity / (months.length : ℝ)
    months.map (fun m =>
      { customer_id := p.customer_id
        commodity_id := p.commodity_id
        bucket_month := m
        quantity := quantityPerMonth })

/-! ## `var_engine.py`: volatility and correlation estimators -/

/-- `np.diff(np.log(prices))`. -/
noncomputable def logReturns (prices : List ℝ) : List ℝ :=
  (prices.zip prices.tail).map (fun ab => Real.log ab.2 - Real.log ab.1)

/-- `np.mean`. -/
noncomputable def npMean (xs : List ℝ) : ℝ := xs.sum / (xs.length : ℝ)

/-- `np.std` (population standard deviation, ddof = 0). -/
noncomputable def npStd (xs : List ℝ) : ℝ :=
  Real.sqrt ((xs.map (fun x => (x - npMean xs) ^ 2)).sum / (xs.length : ℝ))

/-- Per-commodity body of `calculate_volatilities`: fewer than two price
    points ⇒ the 0.15 default, else annualized std of log-returns. -/
noncomputable def volatilityOfPrices (prices : List ℝ) : ℝ :=
  if prices.length < 2 then 0.15
  else npStd (logReturns prices) * Real.sqrt 252

/-- `calculate_volatilities`: dict from commodity id to annualized
    volatility, driven by that commodity's chronological spot prices. -/
noncomputable def calculateVolatilities (spotPrices : String → List ℝ)
    (commodityIds : List String) : Dict String ℝ :=
  commodityIds.foldl (fun acc cid => dictSet acc cid (volatilityOfPrices (spotPrices cid))) []

/-- `np.dot` of two vectors (`zipWith (*)` then sum). -/
noncomputable def pyDot (a b : List ℝ) : ℝ := (List.zipWith (· * ·) a b).sum

/-- Matrix-vector product, rows dotted with the vector. -/
noncomputable def matVec (m : List (List ℝ)) (v : List ℝ) : List ℝ :=
  m.map (fun row => pyDot row v)

/-- Pearson correlation of two equal-length samples, as `np.corrcoef`
    computes each entry. -/
noncomputable def pearson (r s : List ℝ) : ℝ :=
  let rc := r.map (fun x => x - npMean r)
  let sc := s.map (fun x => x - npMean s)
  pyDot rc sc / Real.sqrt (pyDot rc rc * pyDot sc sc)

/-- `np.corrcoef` on a list of rows. -/
noncomputable def corrcoef (rows : List (List ℝ)) : List (List ℝ) :=
  rows.map (fun r => rows.map (fun s => pearson r s))

/-- The identity matrix as `np.eye n` produces it. -/
def npEye : ℕ → List (List ℝ)
  | 0 => []
  | n + 1 => (1 :: List.replicate n 0) :: (npEye n).map (fun r => 0 :: r)

/-- `calculate_correlation_matrix`, driven by each commodity's chronological
    spot-price history.  `none` models a raised exception: `min()` over an
    empty sequence (every return series empty) raises `ValueError`, and
    stacking unequal-length rows into `np.array` / feeding them to
    `np.corrcoef` fails (the series shorter than `min_length` keep their own
    length after the `[-min_length:]` slice). -/
noncomputable def calculateCorrelationMatrix (histories : List (List ℝ)) :
    Option (List (List ℝ)) :=
  if histories.length = 1 then some [[1.0]]
  else
    let returnsBy := histories.map (fun ps =>
      if ps.length < 2 then [] else logReturns ps)
    let nonempty := returnsBy.filter (fun r => 0 < r.length)
    match (nonempty.map List.length).min? with
    | none => none
    | some minLength =>
      if minLength = 0 then some (npEye histories.length)
      else
        let rows := returnsBy.map (fun r => r.drop (r.length - minLength))
        if rows.all (fun r => r.length = minLength) then some (corrcoef rows)
        else none

/-! ## `var_engine.py`: the three VaR formulas -/

/-- `calculate_bucket_var`.  The engine's `z_score`
    (`scipy.stats.norm.ppf(confidence_level)` stored by `__init__`) is
    passed explicitly. -/
noncomputable def calculateBucketVar (zScore volatility forwardPrice netExposure
    timeHorizonYears : ℝ) : ℝ :=
  zScore * volatility * forwardPrice * |netExposure| * Real.sqrt timeHorizonYears

/-- `calculate_commodity_var`: root of the sum of squared bucket VaRs. -/
noncomputable def calculateCommodityVar (bucketVars : List ℝ) : ℝ :=
  Real.sqrt ((bucketVars.map (fun v => v ^ 2)).sum)

/-- `calculate_portfolio_var`: `sqrt(w @ corr @ w)` on lists. -/
noncomputable def calculatePortfolioVar (commodityVars : List ℝ)
    (correlationMatrix : List (List ℝ)) : ℝ :=
  Real.sqrt (pyDot commodityVars (matVec correlationMatrix commodityVars))

/-! ## `var_engine.py`: exposures, risk info, hedges, forward prices -/

/-- The dict key `(str(commodity_id), bucket_month)`. -/
def bucketKey (b : ExposureBucket) : String × PyDate := (b.commodity_id, b.bucket_month)

/-- The row filter shared by `get_exposures_by_bucket` and
    `get_purchase_risk_info`: customer match, commodity in scope, bucket
    month within `[start_date, end_date]`. -/
def bucketInRange (customer : String) (commodityIds : List String)
    (startDate endDate : PyDate) (b : ExposureBucket) : Bool :=
  b.customer_id == customer && commodityIds.contains b.commodity_id &&
    dateLe startDate b.bucket_month && dateLe b.bucket_month endDate

/-- `get_exposures_by_bucket`: sum bucket quantities per
    `(commodity, bucket_month)` key. -/
noncomputable def getExposuresByBucket (buckets : List ExposureBucket)
    (customer : String) (commodityIds : List String) (startDate endDate : PyDate) :
    Dict (String × PyDate) ℝ :=
  (buckets.filter (bucketInRange customer commodityIds startDate endDate)).foldl
    (fun acc b =>
      let k := bucketKey b
      dictSet acc k (dictGetD acc k 0 + b.quantity)) []

/-- The per-bucket risk record of `get_purchase_risk_info`. -/
structure RiskInfo where
  has_risk : Bool
  price : ℝ
  time_horizon_years : ℝ

/-- Lines 189–211 of `var_engine.py`: risk flag, effective date and time
    horizon derived from one (bucket, source purchase) row. -/
noncomputable def rowRiskInfo (referenceDate : PyDate) (bucket : ExposureBucket)
    (purchase : Purchase) : RiskInfo :=
  let hasRiskEffective : Bool × PyDate :=
    if purchase.price_type == "floating" then
      match purchase.payment_date with
      | some pd => (dateLt referenceDate pd, pd)
      | none => (dateLt referenceDate bucket.bucket_month, bucket.bucket_month)
    else (false, bucket.bucket_month)
  let hasRisk := hasRiskEffective.1
  let effectiveDate := hasRiskEffective.2
  let timeHorizonYears : ℝ :=
    if hasRisk && dateLt referenceDate effectiveDate then
      max (((effectiveDate.toOrdinal - referenceDate.toOrdinal : ℤ) : ℝ) / 365) 0.01
    else 0
  { has_risk := hasRisk, price := purchase.purchase_price,
    time_horizon_years := timeHorizonYears }

/-- Lines 214–221: aggregation when several purchases feed one bucket key —
    OR of the risk flags, max of the horizons, price of the first kept. -/
noncomputable def riskCombine (old new : RiskInfo) : RiskInfo :=
  { has_risk := old.has_risk || new.has_risk
    price := old.price
    time_horizon_years := max old.time_horizon_years new.time_horizon_years }

/-- One iteration of the `for bucket, purchase in rows` loop of
    `get_purchase_risk_info`: combine into the existing entry for the key,
    or create the entry. -/
noncomputable def riskStep (referenceDate : PyDate)
    (acc : Dict (String × PyDate) RiskInfo) (r : ExposureBucket × Purchase) :
    Dict (String × PyDate) RiskInfo :=
  let k := bucketKey r.1
  let ri := rowRiskInfo referenceDate r.1 r.2
  match dictGet acc k with
  | some old => dictSet acc k (riskCombine old ri)
  | none => dictSet acc k ri

/-- `get_purchase_risk_info` over the joined (bucket, source purchase) rows. -/
noncomputable def getPurchaseRiskInfo (rows : List (ExposureBucket × Purchase))
    (customer : String) (commodityIds : List String)
    (startDate endDate referenceDate : PyDate) : Dict (String × PyDate) RiskInfo :=
  (rows.filter (fun r => bucketInRange customer commodityIds startDate endDate r.1)).foldl
    (riskStep referenceDate) []

/-- `get_hedge_quantities`: dict of the active session's item quantities
    keyed `(commodity, contract_month)` (empty when no active session). -/
noncomputable def getHedgeQuantities (items : List ((String × PyDate) × ℝ)) :
    Dict (String × PyDate) ℝ :=
  items.foldl (fun acc it => dictSet acc it.1 it.2) []

/-- `get_forward_prices`: dict of futures quotes keyed
    `(commodity, contract_month)`. -/
noncomputable def getForwardPrices (quotes : List ((String × PyDate) × ℝ)) :
    Dict (String × PyDate) ℝ :=
  quotes.foldl (fun acc q => dictSet acc q.1 q.2) []

/-! ## `var_engine.py`: `calculate_var_timeline` -/

/-- The default risk info used when a bucket has no entry in the
    purchase-risk dict (lines 404–408). -/
def defaultRiskInfo : RiskInfo :=
  { has_risk := true, price := 0.5, time_horizon_years := 1.0 }

/-- Lines 410–414: forward-price lookup with Python truthiness — a quote of
    exactly `0.0` is falsy, so it falls through to `risk_info['price']`. -/
noncomputable def bucketForwardPrice (forwardPrices : Dict (String × PyDate) ℝ)
    (riskInfo : RiskInfo) (key : String × PyDate) : ℝ :=
  match dictGet forwardPrices key with
  | some p => if p = 0 then riskInfo.price else p
  | none => riskInfo.price

/-- Lines 422–428: the stored horizon when positive (`not th or th <= 0` is
    `th ≤ 0` for a float), else the months-until fallback floored at 0.01. -/
noncomputable def bucketTimeHorizon (riskInfo : RiskInfo)
    (currentDate bucketMonth : PyDate) : ℝ :=
  if riskInfo.time_horizon_years ≤ 0 then
    let t := monthsUntil currentDate bucketMonth / 12
    if t < 0.01 then 0.01 else t
  else riskInfo.time_horizon_years

/-- Body of the `for (commodity_id, bucket_month), exposure_qty` loop
    (lines 394–439): skip delivered buckets, accumulate the bucket cost per
    commodity, and append a bucket VaR only when the risk flag is set. -/
noncomputable def processBucket (zScore : ℝ) (volatilities : Dict String ℝ)
    (riskInfoMap : Dict (String × PyDate) RiskInfo)
    (hedges forwardPrices : Dict (String × PyDate) ℝ) (currentDate : PyDate)
    (acc : Dict String ℝ × Dict String (List ℝ))
    (entry : (String × PyDate) × ℝ) : Dict String ℝ × Dict String (List ℝ) :=
  let key := entry.1
  let exposureQty := entry.2
  if dateLt key.2 currentDate then acc
  else
    let hedgeQty := dictGetD hedges key 0
    let netExposure := exposureQty - hedgeQty
    let riskInfo := dictGetD riskInfoMap key defaultRiskInfo
    let forwardPrice := bucketForwardPrice forwardPrices riskInfo key
    let bucketCost := forwardPrice * |netExposure|
    let costs := dictSet acc.1 key.1 (dictGetD acc.1 key.1 0 + bucketCost)
    if riskInfo.has_risk then
      let timeHorizonYears := bucketTimeHorizon riskInfo currentDate key.2
      let volatility := dictGetD volatilities key.1 0.15
      let bucketVar := calculateBucketVar zScore volatility forwardPrice
        netExposure timeHorizonYears
      (costs, dictSet acc.2 key.1 (dictGetD acc.2 key.1 [] ++ [bucketVar]))
    else (costs, acc.2)

/-- Body of the `for commodity_id in commodity_ids` rollup loop
    (lines 446–457): commodity VaR from that commodity's bucket VaRs (zero
    when there are none), recorded under the commodity's display name, and
    the accumulated per-commodity cost. -/
noncomputable def rollupStep (commodityNames : Dict String String)
    (bucketCosts : Dict String ℝ) (bucketVarsBy : Dict String (List ℝ))
    (acc : List ℝ × Dict String ℝ × Dict String ℝ) (cid : String) :
    List ℝ × Dict String ℝ × Dict String ℝ :=
  let bucketVars := dictGetD bucketVarsBy cid []
  let commodityVar := if bucketVars ≠ [] then calculateCommodityVar bucketVars else 0
  let name := dictGetD commodityNames cid ""
  (acc.1 ++ [commodityVar],
   dictSet acc.2.1 name commodityVar,
   dictSet acc.2.2 name (dictGetD bucketCosts cid 0))

/-- One point of the timeline response (the `"sugar"`/`"flour"` lookups of
    lines 463–476 use `.get(name, 0)` on the per-name dicts). -/
structure TimelinePoint where
  date : PyDate
  scenario : String
  cost_sugar : ℝ
  cost_flour : ℝ
  cost_portfolio : ℝ
  var_sugar : ℝ
  var_flour : ℝ
  var_portfolio : ℝ

/-- One iteration of the `while current_date <= end_date` loop
    (lines 388–476): per-bucket pass, commodity-level rollup, portfolio
    rollup, and the response record. -/
noncomputable def timelinePointAt (commodityIds : List String)
    (commodityNames : Dict String String) (zScore : ℝ)
    (volatilities : Dict String ℝ) (correlationMatrix : List (List ℝ))
    (riskInfoMap : Dict (String × PyDate) RiskInfo)
    (hedges forwardPrices : Dict (String × PyDate) ℝ)
    (exposures : Dict (String × PyDate) ℝ) (scenario : String)
    (currentDate : PyDate) : TimelinePoint :=
  let init : Dict String ℝ × Dict String (List ℝ) :=
    (commodityIds.map (fun c => (c, (0 : ℝ))),
     commodityIds.map (fun c => (c, ([] : List ℝ))))
  let pass := exposures.foldl
    (processBucket zScore volatilities riskInfoMap hedges forwardPrices currentDate) init
  let bucketCosts := pass.1
  let bucketVarsBy := pass.2
  let rollup := commodityIds.foldl
    (rollupStep commodityNames bucketCosts bucketVarsBy) ([], [], [])
  let commodityVars := rollup.1
  let varDict := rollup.2.1
  let costDict := rollup.2.2
  let portfolioVar := calculatePortfolioVar commodityVars correlationMatrix
  let portfolioCost := (bucketCosts.map (·.2)).sum
  { date := currentDate
    scenario := scenario
    cost_sugar := dictGetD costDict "sugar" 0
    cost_flour := dictGetD costDict "flour" 0
    cost_portfolio := portfolioCost
    var_sugar := dictGetD varDict "sugar" 0
    var_flour := dictGetD varDict "flour" 0
    var_portfolio := portfolioVar }

/-- Lines 479–482: advance to the first day of the next month. -/
def nextMonth (d : PyDate) : PyDate :=
  if d.month = 12 then ⟨d.year + 1, 1, 1⟩ else ⟨d.year, d.month + 1, 1⟩

/-- The `while current_date <= end_date` loop.  The fuel passed by
    `calculateVarTimeline` is exactly the number of iterations the Python
    loop performs for (always-valid) Python dates, so the fueled recursion
    computes the same list. -/
noncomputable def timelineLoop (pointAt : PyDate → TimelinePoint) :
    ℕ → PyDate → PyDate → List TimelinePoint
  | 0, _, _ => []
  | fuel + 1, currentDate, endDate =>
    if dateLe currentDate endDate then
      pointAt currentDate :: timelineLoop pointAt fuel (nextMonth currentDate) endDate
    else []

/-- The database snapshot `calculate_var_timeline` reads, as plain values:
    the `Commodity` table as (id, name) rows, each commodity's
    chronologically ordered spot closes, the exposure buckets with their
    joined source purchase (`none` when the join finds no purchase), the
    active hedge session's items, and the futures quotes. -/
structure TimelineCtx where
  commodities : List (String × String)
  spotPrices : String → List ℝ
  buckets : List (ExposureBucket × Option Purchase)
  hedgeItems : List ((String × PyDate) × ℝ)
  forwardQuotes : List ((String × PyDate) × ℝ)
  customer_id : String

/-- `calculate_var_timeline`.  `zScore` is the engine's stored
    `stats.norm.ppf(confidence_level)`; `referenceDate` is
    `datetime.now().date()` at line 369.  `none` models the one exception
    the call can propagate, from `calculate_correlation_matrix`. -/
noncomputable def calculateVarTimeline (ctx : TimelineCtx) (zScore : ℝ)
    (startDate endDate : PyDate) (includeHedge : Bool) (referenceDate : PyDate) :
    Option (List TimelinePoint) :=
  let commodityIds := ctx.commodities.map (·.1)
  let commodityNames : Dict String String := ctx.commodities
  let volatilities := calculateVolatilities ctx.spotPrices commodityIds
  match calculateCorrelationMatrix (commodityIds.map ctx.spotPrices) with
  | none => none
  | some correlationMatrix =>
    let exposures := getExposuresByBucket (ctx.buckets.map (·.1))
      ctx.customer_id commodityIds startDate endDate
    let joinedRows := ctx.buckets.filterMap (fun bp => bp.2.map (fun p => (bp.1, p)))
    let riskInfoMap := getPurchaseRiskInfo joinedRows ctx.customer_id commodityIds
      startDate endDate referenceDate
    let hedges := if includeHedge then getHedgeQuantities ctx.hedgeItems else []
    let forwardPrices := getForwardPrices ctx.forwardQuotes
    let scenario := if includeHedge then "with_hedge" else "without_hedge"
    some (timelineLoop
      (timelinePointAt commodityIds commodityNames zScore volatilities
        correlationMatrix riskInfoMap hedges forwardPrices exposures scenario)
      (monthIndex endDate - monthIndex startDate + 1).toNat startDate endDate)

/-! ## Dict lemmas -/

theorem dictGet_nil {α β : Type} [DecidableEq α] (k : α) :
    dictGet ([] : Dict α β) k = none := rfl

theorem dictGet_cons {α β : Type} [DecidableEq α] (kv : α × β) (d : Dict α β) (k : α) :
    dictGet (kv :: d) k = if kv.1 = k then some kv.2 else dictGet d k := by
  by_cases h : kv.1 = k <;> simp [dictGet, List.find?, h]

theorem dictGet_dictSet_self {α β : Type} [DecidableEq α] (d : Dict α β) (k : α) (v : β) :
    dictGet (dictSet d k v) k = some v := by
  induction d with
  | nil => simp [dictSet, dictGet_cons]
  | cons kv rest ih =>
    by_cases h : kv.1 = k
    · simp [dictSet, h, dictGet_cons]
    · simp [dictSet, h, dictGet_cons, ih]

theorem dictGet_dictSet_ne {α β : Type} [DecidableEq α] (d : Dict α β) (k k' : α)
    (v : β) (h : k' ≠ k) : dictGet (dictSet d k' v) k = dictGet d k := by
  induction d with
  | nil => simp [dictSet, dictGet_cons, h]
  | cons kv rest ih =>
    by_cases hk : kv.1 = k'
    · simp [dictSet, hk, dictGet_cons, h, hk ▸ h]
    · simp [dictSet, hk, dictGet_cons, ih]

/-! ## Vector/matrix lemmas for the list embedding of numpy -/

theorem pyDot_nil_left (v : List ℝ) : pyDot [] v = 0 := rfl

theorem pyDot_cons (a x : ℝ) (r v : List ℝ) :
    pyDot (a :: r) (x :: v) = a * x + pyDot r v := by
  simp [pyDot]

theorem pyDot_replicate_zero (n : ℕ) (v : List ℝ) :
    pyDot (List.replicate n 0) v = 0 := by
  induction n generalizing v with
  | zero => rfl
  | succ m ih =>
    cases v with
    | nil => simp [pyDot]
    | cons x xs => simp [List.replicate_succ, pyDot_cons, ih]

theorem pyDot_zero_left (v w : List ℝ) (hv : ∀ x ∈ v, x = 0) : pyDot v w = 0 := by
  induction v generalizing w with
  | nil => rfl
  | cons a r ih =>
    cases w with
    | nil => simp [pyDot]
    | cons x xs =>
      rw [pyDot_cons, hv a (by simp), ih xs (fun y hy => hv y (by simp [hy]))]
      ring

theorem pyDot_self (w : List ℝ) : pyDot w w = (w.map (fun x => x ^ 2)).sum := by
  induction w with
  | nil => rfl
  | cons x xs ih => simp [pyDot_cons, ih]; ring

theorem pyDot_replicate_one (w : List ℝ) :
    pyDot (List.replicate w.length 1) w = w.sum := by
  induction w with
  | nil => rfl
  | cons x xs ih => simp [List.replicate_succ, pyDot_cons, ih]

theorem pyDot_replicate_right (w : List ℝ) (s : ℝ) :
    pyDot w (List.replicate w.length s) = w.sum * s := by
  induction w with
  | nil => simp [pyDot]
  | cons x xs ih => simp [List.replicate_succ, pyDot_cons, ih]; ring

theorem matVec_npEye (w : List ℝ) : matVec (npEye w.length) w = w := by
  suffices h : ∀ (n : ℕ) (v : List ℝ), v.length = n → matVec (npEye n) v = v by
    exact h w.length w rfl
  intro n
  induction n with
  | zero => intro v hv; rw [List.length_eq_zero] at hv; simp [hv, npEye, matVec]
  | succ m ih =>
    intro v hv
    cases v with
    | nil => simp at hv
    | cons x xs =>
      simp only [List.length_cons, Nat.succ.injEq] at hv
      simp only [npEye, matVec, List.map_cons, List.map_map]
      rw [List.cons.injEq]
      constructor
      · rw [pyDot_cons, pyDot_replicate_zero]; ring
      · have : ∀ r : List ℝ, pyDot (0 :: r) (x :: xs) = pyDot r xs := by
          intro r; rw [pyDot_cons]; ring
        calc (npEye m).map (fun r => pyDot (0 :: r) (x :: xs))
            = (npEye m).map (fun r => pyDot r xs) := by
              exact List.map_congr_left (fun r _ => this r)
          _ = xs := ih xs hv

theorem matVec_ones (w : List ℝ) :
    matVec (List.replicate w.length (List.replicate w.length (1 : ℝ))) w =
      List.replicate w.length w.sum := by
  simp [matVec, List.map_replicate, pyDot_replicate_one]

/-! ## C1: the bucket VaR formula and the end-to-end single-bucket scenario -/

/-- C1: `calculate_bucket_var` returns
    `z * volatility * forward_price * |net_exposure| * sqrt(horizon)` where
    `z` is the engine's stored standard-normal quantile
    `stats.norm.ppf(confidence_level)`; at confidence 0.95 the quantile is
    1.645 to three decimals, and with volatility 0.15, forward price 0.50,
    exposure 1000 and horizon 1.0 the bucket VaR is 123.375 up to that
    quantile rounding; a single-bucket commodity VaR and the
    single-commodity portfolio VaR (1×1 correlation matrix `[[1.0]]`) both
    equal that same bucket VaR. -/
theorem claim_C1 (z : ℝ) (hz : 0 ≤ z) (hz645 : |z - 1.645| ≤ 0.001) :
    (∀ v p e T, calculateBucketVar z v p e T = z * v * p * |e| * Real.sqrt T) ∧
    |calculateBucketVar z 0.15 0.5 1000 1 - 123.375| ≤ 0.075 ∧
    calculateCommodityVar [calculateBucketVar z 0.15 0.5 1000 1] =
      calculateBucketVar z 0.15 0.5 1000 1 ∧
    calculatePortfolioVar [calculateBucketVar z 0.15 0.5 1000 1] [[1.0]] =
      calculateBucketVar z 0.15 0.5 1000 1 := by
  have hbv : calculateBucketVar z 0.15 0.5 1000 1 = 75 * z := by
    unfold calculateBucketVar
    rw [Real.sqrt_one]
    rw [show |(1000 : ℝ)| = 1000 by norm_num]
    ring
  have hbv0 : 0 ≤ calculateBucketVar z 0.15 0.5 1000 1 := by
    rw [hbv]; positivity
  refine ⟨fun v p e T => rfl, ?_, ?_, ?_⟩
  · rw [hbv]
    have : 75 * z - 123.375 = 75 * (z - 1.645) := by ring
    rw [this, abs_mul, show |(75 : ℝ)| = 75 by norm_num]
    nlinarith [hz645]
  · unfold calculateCommodityVar
    simp only [List.map_cons, List.map_nil, List.sum_cons, List.sum_nil, add_zero]
    exact Real.sqrt_sq hbv0
  · unfold calculatePortfolioVar matVec
    simp only [List.map_cons, List.map_nil]
    have h1 : pyDot [(1.0 : ℝ)] [calculateBucketVar z 0.15 0.5 1000 1] =
        calculateBucketVar z 0.15 0.5 1000 1 := by
      simp [pyDot]
      norm_num
    rw [h1]
    have h2 : pyDot [calculateBucketVar z 0.15 0.5 1000 1]
        [calculateBucketVar z 0.15 0.5 1000 1] =
        calculateBucketVar z 0.15 0.5 1000 1 ^ 2 := by
      simp [pyDot]; ring
    rw [h2]
    exact Real.sqrt_sq hbv0

/-- C1 witness: the scenario instantiated at the three-decimal quantile
    `z = 1.645`. -/
theorem claim_C1_witness :
    |calculateBucketVar 1.645 0.15 0.5 1000 1 - 123.375| ≤ 0.075 ∧
    calculatePortfolioVar [calculateBucketVar 1.645 0.15 0.5 1000 1] [[1.0]] =
      calculateBucketVar 1.645 0.15 0.5 1000 1 :=
  ⟨(claim_C1 1.645 (by norm_num) (by norm_num)).2.1,
   (claim_C1 1.645 (by norm_num) (by norm_num)).2.2.2⟩

/-! ## C3: portfolio VaR under identity and all-ones correlation -/

/-- C3: `calculate_portfolio_var` computes `sqrt(w @ Corr @ w)`; with the
    identity correlation matrix this is the root of the sum of squared
    commodity VaRs, and with the all-ones correlation matrix (perfect
    correlation) it is the plain sum of the (non-negative) commodity
    VaRs. -/
theorem claim_C3 (w : List ℝ) :
    (∀ corr, calculatePortfolioVar w corr = Real.sqrt (pyDot w (matVec corr w))) ∧
    calculatePortfolioVar w (npEye w.length) =
      Real.sqrt ((w.map (fun x => x ^ 2)).sum) ∧
    ((∀ x ∈ w, 0 ≤ x) →
      calculatePortfolioVar w (List.replicate w.length (List.replicate w.length 1)) =
        w.sum) := by
  refine ⟨fun corr => rfl, ?_, ?_⟩
  · unfold calculatePortfolioVar
    rw [matVec_npEye, pyDot_self]
  · intro hw
    unfold calculatePortfolioVar
    rw [matVec_ones, pyDot_replicate_right]
    exact Real.sqrt_mul_self (List.sum_nonneg hw)

/-- C3 witness: `w = [3, 4]` gives `sqrt 25 = 5` under identity correlation
    and `7` under all-ones correlation. -/
theorem claim_C3_witness :
    calculatePortfolioVar [3, 4] (npEye 2) = Real.sqrt 25 ∧
    calculatePortfolioVar [3, 4] (List.replicate 2 (List.replicate 2 1)) = 7 := by
  have h := claim_C3 [3, 4]
  constructor
  · have h2 := h.2.1
    simp only [List.length_cons, List.length_nil, List.map_cons, List.map_nil,
      List.sum_cons, List.sum_nil] at h2
    rw [h2]; norm_num
  · have h3 := h.2.2 (by
      intro x hx
      simp only [List.mem_cons, List.not_mem_nil, or_false] at hx
      rcases hx with rfl | rfl <;> norm_num)
    simp only [List.length_cons, List.length_nil, List.sum_cons, List.sum_nil] at h3
    rw [h3]; norm_num

/-! ## C9: monotonicity of bucket VaR and the hedge inequality -/

/-- `|e - h| ≤ |e|` when the hedge has the exposure's sign and does not
    overshoot it. -/
theorem abs_sub_hedge_le (e h : ℝ) (hsign : 0 ≤ h * e) (hle : |h| ≤ |e|) :
    |e - h| ≤ |e| := by
  rcases le_or_lt 0 e with he | he
  · rcases eq_or_lt_of_le he with he0 | hepos
    · have : h = 0 := by
        have : |h| ≤ 0 := by rwa [← he0, abs_zero] at hle
        exact abs_eq_zero.mp (le_antisymm this (abs_nonneg h))
      simp [← he0, this]
    · have hh0 : 0 ≤ h := by nlinarith
      have hhe : h ≤ e := by
        rwa [abs_of_nonneg hh0, abs_of_nonneg he] at hle
      rw [abs_of_nonneg he, abs_of_nonneg (by linarith)]
      linarith
  · have hh0 : h ≤ 0 := by
      by_contra hc
      push_neg at hc
      nlinarith
    have hhe : e ≤ h := by
      rwa [abs_of_nonpos hh0, abs_of_nonpos he.le, neg_le_neg_iff] at hle
    rw [abs_of_nonpos he.le, abs_of_nonpos (by linarith)]
    linarith

/-- C9: with a non-negative z-score (the standard-normal quantile of any
    confidence level in `[0.5, 0.99)` is non-negative) and non-negative
    volatility, forward price and horizon, the bucket VaR is monotone
    non-decreasing in `|net_exposure|`, in volatility and in the horizon;
    hence replacing the exposure by `exposure − hedge` with a same-signed,
    non-overshooting hedge can only lower the bucket VaR. -/
theorem claim_C9 (z v p T : ℝ) (hz : 0 ≤ z) (hv : 0 ≤ v) (hp : 0 ≤ p)
    (hT : 0 ≤ T) :
    (∀ e e', |e| ≤ |e'| →
      calculateBucketVar z v p e T ≤ calculateBucketVar z v p e' T) ∧
    (∀ v' e, v ≤ v' →
      calculateBucketVar z v p e T ≤ calculateBucketVar z v' p e T) ∧
    (∀ T' e, T ≤ T' →
      calculateBucketVar z v p e T ≤ calculateBucketVar z v p e T') ∧
    (∀ e h, 0 ≤ h * e → |h| ≤ |e| →
      calculateBucketVar z v p (e - h) T ≤ calculateBucketVar z v p e T) := by
  have hmono : ∀ e e', |e| ≤ |e'| →
      calculateBucketVar z v p e T ≤ calculateBucketVar z v p e' T := by
    intro e e' he
    unfold calculateBucketVar
    have hs : 0 ≤ Real.sqrt T := Real.sqrt_nonneg T
    have : z * v * p * |e| ≤ z * v * p * |e'| := by
      apply mul_le_mul_of_nonneg_left he
      positivity
    exact mul_le_mul_of_nonneg_right this hs
  refine ⟨hmono, ?_, ?_, ?_⟩
  · intro v' e hvv
    unfold calculateBucketVar
    have hs : 0 ≤ Real.sqrt T := Real.sqrt_nonneg T
    have : z * v * p * |e| ≤ z * v' * p * |e| := by
      apply mul_le_mul_of_nonneg_right
      · exact mul_le_mul_of_nonneg_right (mul_le_mul_of_nonneg_left hvv hz) hp
      · exact abs_nonneg e
    exact mul_le_mul_of_nonneg_right this hs
  · intro T' e hTT
    unfold calculateBucketVar
    apply mul_le_mul_of_nonneg_left (Real.sqrt_le_sqrt hTT)
    positivity
  · intro e h hsign hle
    exact hmono (e - h) e (abs_sub_hedge_le e h hsign hle)

/-- C9 witness: exposure 2 hedged by 1 at unit volatility/price/horizon. -/
theorem claim_C9_witness :
    calculateBucketVar 1 1 1 (2 - 1) 1 ≤ calculateBucketVar 1 1 1 2 1 :=
  (claim_C9 1 1 1 1 (by norm_num) (by norm_num) (by norm_num)
    (by norm_num)).2.2.2 2 1 (by norm_num) (by norm_num)

/-! ## C2: bucket creation distributes the quantity evenly -/

theorem sum_map_const {α : Type} (l : List α) (c : ℝ) :
    (l.map (fun _ => c)).sum = (l.length : ℝ) * c := by
  induction l with
  | nil => simp
  | cons a rest ih => simp [ih]; ring

theorem getMonthsBetween_length (s e : PyDate) :
    (getMonthsBetween s e).length =
      (monthIndex (getMonthStart e) - monthIndex (getMonthStart s) + 1).toNat := by
  unfold getMonthsBetween
  simp only [List.length_map, List.length_range]

/-- C2: when the delivery window spans at least one calendar month
    (endpoints normalized to month start, inclusive), one bucket per month
    is created, each carrying `quantity / month_count`, and the bucket
    quantities sum back to the purchase quantity exactly (the embedding is
    over `ℝ`, so "within floating-point tolerance" becomes equality); a
    window with zero qualifying months yields no buckets. -/
theorem claim_C2 (p : Purchase) :
    (monthIndex (getMonthStart p.delivery_start_date) ≤
        monthIndex (getMonthStart p.delivery_end_date) →
      (createExposureBucketsForPurchase p).length =
        (monthIndex (getMonthStart p.delivery_end_date) -
          monthIndex (getMonthStart p.delivery_start_date) + 1).toNat ∧
      (∀ b ∈ createExposureBucketsForPurchase p,
        b.quantity = p.quantity / ((createExposureBucketsForPurchase p).length : ℝ)) ∧
      ((createExposureBucketsForPurchase p).map (fun b => b.quantity)).sum =
        p.quantity) ∧
    (monthIndex (getMonthStart p.delivery_end_date) <
        monthIndex (getMonthStart p.delivery_start_date) →
      createExposureBucketsForPurchase p = []) := by
  have hlen := getMonthsBetween_length p.delivery_start_date p.delivery_end_date
  constructor
  · intro hab
    have hpos : 0 < (getMonthsBetween p.delivery_start_date p.delivery_end_date).length := by
      rw [hlen]; omega
    have hne : getMonthsBetween p.delivery_start_date p.delivery_end_date ≠ [] :=
      List.ne_nil_of_length_pos hpos
    have hbuckets : createExposureBucketsForPurchase p =
        (getMonthsBetween p.delivery_start_date p.delivery_end_date).map (fun m =>
          { customer_id := p.customer_id
            commodity_id := p.commodity_id
            bucket_month := m
            quantity := p.quantity /
              ((getMonthsBetween p.delivery_start_date p.delivery_end_date).length : ℝ) }) := by
      unfold createExposureBucketsForPurchase
      rw [if_neg hne]
    have hblen : (createExposureBucketsForPurchase p).length =
        (getMonthsBetween p.delivery_start_date p.delivery_end_date).length := by
      rw [hbuckets, List.length_map]
    refine ⟨by rw [hblen, hlen], ?_, ?_⟩
    · intro b hb
      rw [hbuckets] at hb
      obtain ⟨m, _, rfl⟩ := List.mem_map.mp hb
      rw [hblen]
    · rw [hbuckets, List.map_map]
      have : ((getMonthsBetween p.delivery_start_date p.delivery_end_date).map
          (fun _ => p.quantity /
            ((getMonthsBetween p.delivery_start_date p.delivery_end_date).length : ℝ))).sum =
          ((getMonthsBetween p.delivery_start_date p.delivery_end_date).length : ℝ) *
            (p.quantity /
              ((getMonthsBetween p.delivery_start_date p.delivery_end_date).length : ℝ)) :=
        sum_map_const _ _
      rw [show ((fun b : ExposureBucket => b.quantity) ∘ fun m => ({ customer_id := p.customer_id, commodity_id := p.commodity_id, bucket_month := m, quantity := p.quantity / ((getMonthsBetween p.delivery_start_date p.delivery_end_date).length : ℝ) } : ExposureBucket)) = fun _ => p.quantity / ((getMonthsBetween p.delivery_start_date p.delivery_end_date).length : ℝ) from rfl]
      rw [this]
      have hne0 : ((getMonthsBetween p.delivery_start_date p.delivery_end_date).length : ℝ) ≠ 0 := by
        exact_mod_cast Nat.pos_iff_ne_zero.mp hpos
      field_simp
  · intro hba
    have hz : (getMonthsBetween p.delivery_start_date p.delivery_end_date).length = 0 := by
      rw [hlen]; omega
    have hnil : getMonthsBetween p.delivery_start_date p.delivery_end_date = [] :=
      List.eq_nil_of_length_eq_zero hz
    unfold createExposureBucketsForPurchase
    rw [if_pos hnil]

/-- C2 witness: a purchase of 300 delivered mid-January to mid-March 2025
    spans three months, and the bucket quantities sum back to 300. -/
theorem claim_C2_witness :
    ((createExposureBucketsForPurchase
        ⟨"A", "c1", 300, ⟨2025, 1, 15⟩, ⟨2025, 3, 10⟩, "floating", none, 0.6⟩).map
      (fun b => b.quantity)).sum = 300 ∧
    (createExposureBucketsForPurchase
        ⟨"A", "c1", 300, ⟨2025, 1, 15⟩, ⟨2025, 3, 10⟩, "floating", none, 0.6⟩).length = 3 := by
  have h := (claim_C2
    ⟨"A", "c1", 300, ⟨2025, 1, 15⟩, ⟨2025, 3, 10⟩, "floating", none, 0.6⟩).1 (by decide)
  exact ⟨h.2.2, by rw [h.1]; decide⟩

/-! ## C8: the volatility estimator and its short-history fallback -/

theorem foldl_dictSet_lookup {α β : Type} [DecidableEq α] (f : α → β)
    (l : List α) (acc : Dict α β) (k : α) :
    dictGet (l.foldl (fun d a => dictSet d a (f a)) acc) k =
      if k ∈ l then some (f k) else dictGet acc k := by
  induction l generalizing acc with
  | nil => simp
  | cons a rest ih =>
    rw [List.foldl_cons, ih]
    by_cases hk : k ∈ rest
    · simp [hk]
    · by_cases hak : k = a
      · subst hak
        simp [hk, dictGet_dictSet_self]
      · simp [hk, hak, dictGet_dictSet_ne _ _ _ _ (Ne.symm hak)]

/-- C8: a commodity with fewer than two historical spot prices gets exactly
    the fallback volatility 0.15 (the dict entry is produced, never an
    error); with two or more prices it gets the population standard
    deviation of the log-returns annualized by `sqrt 252`, and on positive
    prices those returns are exactly `ln(p[i] / p[i-1])`. -/
theorem claim_C8 (spot : String → List ℝ) (cids : List String) (cid : String)
    (hmem : cid ∈ cids) :
    ((spot cid).length < 2 →
      dictGet (calculateVolatilities spot cids) cid = some 0.15) ∧
    (2 ≤ (spot cid).length →
      dictGet (calculateVolatilities spot cids) cid =
        some (npStd (logReturns (spot cid)) * Real.sqrt 252)) ∧
    ((∀ x ∈ spot cid, 0 < x) →
      logReturns (spot cid) =
        ((spot cid).zip (spot cid).tail).map (fun ab => Real.log (ab.2 / ab.1))) := by
  have hfold : dictGet (calculateVolatilities spot cids) cid =
      some (volatilityOfPrices (spot cid)) := by
    unfold calculateVolatilities
    rw [foldl_dictSet_lookup (fun c => volatilityOfPrices (spot c)) cids [] cid]
    simp [hmem]
  refine ⟨?_, ?_, ?_⟩
  · intro hshort
    rw [hfold]
    unfold volatilityOfPrices
    rw [if_pos hshort]
  · intro hlong
    rw [hfold]
    unfold volatilityOfPrices
    rw [if_neg (by omega)]
  · intro hpos
    unfold logReturns
    apply List.map_congr_left
    intro ab hab
    obtain ⟨h1, h2⟩ := List.of_mem_zip hab
    rw [Real.log_div
      (ne_of_gt (hpos ab.2 (List.mem_of_mem_tail h2)))
      (ne_of_gt (hpos ab.1 h1))]

/-- C8 witness: an empty price history yields exactly the 0.15 fallback. -/
theorem claim_C8_witness :
    dictGet (calculateVolatilities (fun _ => []) ["c1"]) "c1" = some 0.15 :=
  (claim_C8 (fun _ => []) ["c1"] "c1" (by simp)).1 (by simp)

/-! ## C4: the correlation estimator's zero-returns fallback is unreachable -/

/-- C4: the single-commodity case does return `[[1.0]]`, but the claimed
    identity-matrix fallback for commodities with zero usable returns never
    happens: the `min_length` generator filters out empty return series, so
    with every series empty `min()` raises `ValueError` (second conjunct,
    two one-point histories), and with only some series empty the
    `[-min_length:]` slices have unequal lengths and the `np.array` /
    `np.corrcoef` call fails (third conjunct); neither produces the
    `np.eye(2) = [[1,0],[0,1]]` fallback of the dead `min_length == 0`
    branch (fourth conjunct states what that fallback would have been). -/
theorem claim_C4 :
    calculateCorrelationMatrix [[0.5]] = some [[1.0]] ∧
    calculateCorrelationMatrix [[1.0], [2.0]] = none ∧
    calculateCorrelationMatrix [[1.0, 2.0, 3.0], [2.0]] = none ∧
    npEye 2 = [[1, 0], [0, 1]] := by
  refine ⟨?_, ?_, ?_, rfl⟩
  · unfold calculateCorrelationMatrix
    norm_num
  · unfold calculateCorrelationMatrix
    norm_num [logReturns]
  · unfold calculateCorrelationMatrix
    norm_num [logReturns]

/-! ## C7: the risk-info resolver and its per-key aggregation -/

/-- The per-row risk records that the rows mapping to key `k` contribute. -/
noncomputable def rowContributions (referenceDate : PyDate)
    (rows : List (ExposureBucket × Purchase)) (k : String × PyDate) : List RiskInfo :=
  (rows.filter (fun r => bucketKey r.1 = k)).map
    (fun r => rowRiskInfo referenceDate r.1 r.2)

theorem riskFold_lookup (referenceDate : PyDate)
    (rows : List (ExposureBucket × Purchase))
    (acc : Dict (String × PyDate) RiskInfo) (k : String × PyDate) :
    dictGet (rows.foldl (riskStep referenceDate) acc) k =
      match dictGet acc k, rowContributions referenceDate rows k with
      | some r, cs => some (cs.foldl riskCombine r)
      | none, [] => none
      | none, c :: cs => some (cs.foldl riskCombine c) := by
  induction rows generalizing acc with
  | nil =>
    cases h : dictGet acc k <;> simp [rowContributions, h]
  | cons r rest ih =>
    rw [List.foldl_cons, ih]
    have hstep : riskStep referenceDate acc r =
        match dictGet acc (bucketKey r.1) with
        | some old => dictSet acc (bucketKey r.1)
            (riskCombine old (rowRiskInfo referenceDate r.1 r.2))
        | none => dictSet acc (bucketKey r.1) (rowRiskInfo referenceDate r.1 r.2) := rfl
    by_cases hk : bucketKey r.1 = k
    · have hcontrib : rowContributions referenceDate (r :: rest) k =
          rowRiskInfo referenceDate r.1 r.2 :: rowContributions referenceDate rest k := by
        simp [rowContributions, hk]
      rw [hcontrib]
      cases h : dictGet acc k with
      | some old =>
        rw [hk] at hstep
        simp only [hstep, h, dictGet_dictSet_self]
        simp [List.foldl_cons]
      | none =>
        rw [hk] at hstep
        simp only [hstep, h, dictGet_dictSet_self]
        try simp [List.foldl_cons]
    · have hcontrib : rowContributions referenceDate (r :: rest) k =
          rowContributions referenceDate rest k := by
        simp [rowContributions, hk]
      rw [hcontrib]
      have hget : dictGet (riskStep referenceDate acc r) k = dictGet acc k := by
        rw [hstep]
        cases h : dictGet acc (bucketKey r.1) <;> simp only [h] <;>
          exact dictGet_dictSet_ne _ _ _ _ hk
      rw [hget]

theorem foldl_riskCombine_risk (c : RiskInfo) (cs : List RiskInfo) :
    (cs.foldl riskCombine c).has_risk =
      (c.has_risk || cs.any (fun r => r.has_risk)) := by
  induction cs generalizing c with
  | nil => simp
  | cons d rest ih => simp [ih, riskCombine, Bool.or_assoc]

theorem foldl_riskCombine_horizon (c : RiskInfo) (cs : List RiskInfo) :
    (cs.foldl riskCombine c).time_horizon_years =
      (cs.map (fun r => r.time_horizon_years)).foldl max c.time_horizon_years := by
  induction cs generalizing c with
  | nil => simp
  | cons d rest ih => simp [ih, riskCombine]

theorem foldl_max_init_le (l : List ℝ) (x : ℝ) : x ≤ l.foldl max x := by
  induction l generalizing x with
  | nil => simp
  | cons a rest ih => exact le_trans (le_max_left x a) (ih (max x a))

theorem mem_le_foldl_max (l : List ℝ) (x y : ℝ) (hy : y ∈ l) :
    y ≤ l.foldl max x := by
  induction l generalizing x with
  | nil => simp at hy
  | cons a rest ih =>
    rcases List.mem_cons.mp hy with rfl | hmem
    · exact le_trans (le_max_right x y) (foldl_max_init_le rest (max x y))
    · exact ih (max x a) hmem

/-- C7: (a) a floating-price purchase with a payment date is at-risk iff
    the payment date is strictly after the reference date, and then its
    horizon is `(payment_date − reference_date).days / 365` floored at
    0.01; (b) the entry stored for a key with contributors `c :: cs` has
    the OR of the contributors' risk flags and the maximum of their
    horizons (an upper bound of every contributor's horizon). -/
theorem claim_C7 :
    (∀ (referenceDate : PyDate) (b : ExposureBucket) (p : Purchase) (pd : PyDate),
      p.price_type = "floating" → p.payment_date = some pd →
      ((rowRiskInfo referenceDate b p).has_risk = true ↔ dateLt referenceDate pd = true) ∧
      (dateLt referenceDate pd = true →
        (rowRiskInfo referenceDate b p).time_horizon_years =
          max (((pd.toOrdinal - referenceDate.toOrdinal : ℤ) : ℝ) / 365) 0.01)) ∧
    (∀ (rows : List (ExposureBucket × Purchase)) (customer : String)
      (commodityIds : List String) (startDate endDate referenceDate : PyDate)
      (k : String × PyDate) (c : RiskInfo) (cs : List RiskInfo),
      rowContributions referenceDate
          (rows.filter (fun r => bucketInRange customer commodityIds startDate endDate r.1)) k =
        c :: cs →
      ∃ r, dictGet (getPurchaseRiskInfo rows customer commodityIds
            startDate endDate referenceDate) k = some r ∧
        r.has_risk = (c :: cs).any (fun x => x.has_risk) ∧
        r.time_horizon_years =
          (cs.map (fun x => x.time_horizon_years)).foldl max c.time_horizon_years ∧
        ∀ x ∈ c :: cs, x.time_horizon_years ≤ r.time_horizon_years) := by
  constructor
  · intro referenceDate b p pd hfloat hpd
    constructor
    · simp [rowRiskInfo, hfloat, hpd]
    · intro h
      simp [rowRiskInfo, hfloat, hpd, h]
  · intro rows customer commodityIds startDate endDate referenceDate k c cs hcs
    unfold getPurchaseRiskInfo
    rw [riskFold_lookup, dictGet_nil, hcs]
    refine ⟨cs.foldl riskCombine c, rfl, ?_, ?_, ?_⟩
    · rw [foldl_riskCombine_risk]
      simp
    · exact foldl_riskCombine_horizon c cs
    · intro x hx
      rw [foldl_riskCombine_horizon]
      rcases List.mem_cons.mp hx with rfl | hmem
      · exact foldl_max_init_le _ _
      · exact mem_le_foldl_max _ _ _ (List.mem_map_of_mem (fun y => y.time_horizon_years) hmem)

/-- C7 witness: one bucket fed by a risky floating purchase (payment
    2025-09-01, reference 2025-01-01) and a risk-free fixed purchase — the
    stored entry is flagged at-risk. -/
theorem claim_C7_witness :
    ∃ r, dictGet (getPurchaseRiskInfo
        [(⟨"A", "c1", ⟨2025, 6, 1⟩, 50⟩,
          ⟨"A", "c1", 100, ⟨2025, 6, 1⟩, ⟨2025, 6, 1⟩, "floating", some ⟨2025, 9, 1⟩, 0.6⟩),
         (⟨"A", "c1", ⟨2025, 6, 1⟩, 50⟩,
          ⟨"A", "c1", 100, ⟨2025, 6, 1⟩, ⟨2025, 6, 1⟩, "fixed", none, 0.8⟩)]
        "A" ["c1"] ⟨2025, 1, 1⟩ ⟨2026, 1, 1⟩ ⟨2025, 1, 1⟩) ("c1", ⟨2025, 6, 1⟩) = some r ∧
      r.has_risk = true := by
  obtain ⟨r, hr, hrisk, -, -⟩ := claim_C7.2
    [(⟨"A", "c1", ⟨2025, 6, 1⟩, 50⟩,
      ⟨"A", "c1", 100, ⟨2025, 6, 1⟩, ⟨2025, 6, 1⟩, "floating", some ⟨2025, 9, 1⟩, 0.6⟩),
     (⟨"A", "c1", ⟨2025, 6, 1⟩, 50⟩,
      ⟨"A", "c1", 100, ⟨2025, 6, 1⟩, ⟨2025, 6, 1⟩, "fixed", none, 0.8⟩)]
    "A" ["c1"] ⟨2025, 1, 1⟩ ⟨2026, 1, 1⟩ ⟨2025, 1, 1⟩ ("c1", ⟨2025, 6, 1⟩)
    (rowRiskInfo ⟨2025, 1, 1⟩ ⟨"A", "c1", ⟨2025, 6, 1⟩, 50⟩
      ⟨"A", "c1", 100, ⟨2025, 6, 1⟩, ⟨2025, 6, 1⟩, "floating", some ⟨2025, 9, 1⟩, 0.6⟩)
    [rowRiskInfo ⟨2025, 1, 1⟩ ⟨"A", "c1", ⟨2025, 6, 1⟩, 50⟩
      ⟨"A", "c1", 100, ⟨2025, 6, 1⟩, ⟨2025, 6, 1⟩, "fixed", none, 0.8⟩]
    (by simp [rowContributions, bucketKey, bucketInRange, dateLe])
  refine ⟨r, hr, ?_⟩
  rw [hrisk]
  simp [rowRiskInfo, dateLt]

/-! ## Shared lemma: the per-bucket step on a not-yet-delivered bucket -/

theorem processBucket_eq (zScore : ℝ) (volatilities : Dict String ℝ)
    (riskInfoMap : Dict (String × PyDate) RiskInfo)
    (hedges forwardPrices : Dict (String × PyDate) ℝ) (currentDate : PyDate)
    (acc : Dict String ℝ × Dict String (List ℝ)) (k : String × PyDate) (q : ℝ)
    (hdate : dateLt k.2 currentDate = false) :
    (processBucket zScore volatilities riskInfoMap hedges forwardPrices
        currentDate acc (k, q)).1 =
      dictSet acc.1 k.1 (dictGetD acc.1 k.1 0 +
        bucketForwardPrice forwardPrices (dictGetD riskInfoMap k defaultRiskInfo) k *
          |q - dictGetD hedges k 0|) ∧
    (processBucket zScore volatilities riskInfoMap hedges forwardPrices
        currentDate acc (k, q)).2 =
      (if (dictGetD riskInfoMap k defaultRiskInfo).has_risk then
        dictSet acc.2 k.1 (dictGetD acc.2 k.1 [] ++
          [calculateBucketVar zScore (dictGetD volatilities k.1 0.15)
            (bucketForwardPrice forwardPrices (dictGetD riskInfoMap k defaultRiskInfo) k)
            (q - dictGetD hedges k 0)
            (bucketTimeHorizon (dictGetD riskInfoMap k defaultRiskInfo) currentDate k.2)])
      else acc.2) := by
  by_cases hrisk : (dictGetD riskInfoMap k defaultRiskInfo).has_risk <;>
    simp [processBucket, hdate, hrisk]

/-! ## C5 (amended): the forward-price fallback chain in the timeline -/

/-- C5 amended: when no forward quote exists for a bucket's
    `(commodity, contract month)` key, the price used is the bucket's
    risk-info price — the source purchase's `purchase_price`, or 0.5 when
    the bucket has no risk-info entry at all (not the most recent spot
    price, which this code path never consults) — and that single fallback
    price feeds both the expected-cost term and the bucket-VaR term; the
    per-bucket computation is total, so a missing forward price never
    fails. -/
theorem claim_C5_amended (zScore : ℝ) (volatilities : Dict String ℝ)
    (riskInfoMap : Dict (String × PyDate) RiskInfo)
    (hedges forwardPrices : Dict (String × PyDate) ℝ) (currentDate : PyDate)
    (acc : Dict String ℝ × Dict String (List ℝ)) (k : String × PyDate) (q : ℝ)
    (hfp : dictGet forwardPrices k = none)
    (hdate : dateLt k.2 currentDate = false) :
    bucketForwardPrice forwardPrices (dictGetD riskInfoMap k defaultRiskInfo) k =
      (dictGetD riskInfoMap k defaultRiskInfo).price ∧
    (dictGet riskInfoMap k = none →
      bucketForwardPrice forwardPrices (dictGetD riskInfoMap k defaultRiskInfo) k = 0.5) ∧
    (processBucket zScore volatilities riskInfoMap hedges forwardPrices
        currentDate acc (k, q)).1 =
      dictSet acc.1 k.1 (dictGetD acc.1 k.1 0 +
        (dictGetD riskInfoMap k defaultRiskInfo).price * |q - dictGetD hedges k 0|) ∧
    ((dictGetD riskInfoMap k defaultRiskInfo).has_risk = true →
      (processBucket zScore volatilities riskInfoMap hedges forwardPrices
          currentDate acc (k, q)).2 =
        dictSet acc.2 k.1 (dictGetD acc.2 k.1 [] ++
          [calculateBucketVar zScore (dictGetD volatilities k.1 0.15)
            ((dictGetD riskInfoMap k defaultRiskInfo).price)
            (q - dictGetD hedges k 0)
            (bucketTimeHorizon (dictGetD riskInfoMap k defaultRiskInfo) currentDate k.2)])) := by
  have hprice : bucketForwardPrice forwardPrices
      (dictGetD riskInfoMap k defaultRiskInfo) k =
      (dictGetD riskInfoMap k defaultRiskInfo).price := by
    unfold bucketForwardPrice
    rw [hfp]
  obtain ⟨h1, h2⟩ := processBucket_eq zScore volatilities riskInfoMap hedges
    forwardPrices currentDate acc k q hdate
  refine ⟨hprice, ?_, ?_, ?_⟩
  · intro hnone
    rw [hprice]
    unfold dictGetD
    rw [hnone]
    rfl
  · rw [h1, hprice]
  · intro hrisk
    rw [h2, hprice, if_pos hrisk]

/-- C5 amended witness: no quote, a risk-info entry with purchase price
    0.7 — the cost contribution uses 0.7. -/
theorem claim_C5_amended_witness :
    (processBucket 1.645 []
        [(("c1", (⟨2025, 6, 1⟩ : PyDate)), (⟨true, 0.7, 1.0⟩ : RiskInfo))]
        ([] : Dict (String × PyDate) ℝ) ([] : Dict (String × PyDate) ℝ)
        (⟨2025, 6, 1⟩ : PyDate) ([("c1", (0 : ℝ))], [("c1", ([] : List ℝ))])
        (("c1", (⟨2025, 6, 1⟩ : PyDate)), (100 : ℝ))).1 =
      dictSet [("c1", (0 : ℝ))] "c1" (dictGetD [("c1", (0 : ℝ))] "c1" 0 +
        (dictGetD [(("c1", (⟨2025, 6, 1⟩ : PyDate)), (⟨true, 0.7, 1.0⟩ : RiskInfo))]
            ("c1", (⟨2025, 6, 1⟩ : PyDate)) defaultRiskInfo).price *
          |(100 : ℝ) - dictGetD ([] : Dict (String × PyDate) ℝ)
            ("c1", (⟨2025, 6, 1⟩ : PyDate)) 0|) :=
  (claim_C5_amended 1.645 []
    [(("c1", (⟨2025, 6, 1⟩ : PyDate)), (⟨true, 0.7, 1.0⟩ : RiskInfo))]
    ([] : Dict (String × PyDate) ℝ) ([] : Dict (String × PyDate) ℝ)
    (⟨2025, 6, 1⟩ : PyDate) ([("c1", (0 : ℝ))], [("c1", ([] : List ℝ))])
    ("c1", (⟨2025, 6, 1⟩ : PyDate)) 100
    rfl (by decide)).2.2.1

/-! ## C10: a forward quote of exactly 0.0 is treated as missing -/

/-- C10: the lookup result is tested for truthiness, so a stored quote of
    exactly `0.0` falls through to the risk-info fallback price (the source
    purchase's price, or 0.5 with no risk-info entry), which is then used
    for both the expected-cost and the bucket-VaR term. -/
theorem claim_C10 (zScore : ℝ) (volatilities : Dict String ℝ)
    (riskInfoMap : Dict (String × PyDate) RiskInfo)
    (hedges forwardPrices : Dict (String × PyDate) ℝ) (currentDate : PyDate)
    (acc : Dict String ℝ × Dict String (List ℝ)) (k : String × PyDate) (q : ℝ)
    (hfp : dictGet forwardPrices k = some 0)
    (hdate : dateLt k.2 currentDate = false) :
    bucketForwardPrice forwardPrices (dictGetD riskInfoMap k defaultRiskInfo) k =
      (dictGetD riskInfoMap k defaultRiskInfo).price ∧
    (dictGet riskInfoMap k = none →
      bucketForwardPrice forwardPrices (dictGetD riskInfoMap k defaultRiskInfo) k = 0.5) ∧
    (processBucket zScore volatilities riskInfoMap hedges forwardPrices
        currentDate acc (k, q)).1 =
      dictSet acc.1 k.1 (dictGetD acc.1 k.1 0 +
        (dictGetD riskInfoMap k defaultRiskInfo).price * |q - dictGetD hedges k 0|) ∧
    ((dictGetD riskInfoMap k defaultRiskInfo).has_risk = true →
      (processBucket zScore volatilities riskInfoMap hedges forwardPrices
          currentDate acc (k, q)).2 =
        dictSet acc.2 k.1 (dictGetD acc.2 k.1 [] ++
          [calculateBucketVar zScore (dictGetD volatilities k.1 0.15)
            ((dictGetD riskInfoMap k defaultRiskInfo).price)
            (q - dictGetD hedges k 0)
            (bucketTimeHorizon (dictGetD riskInfoMap k defaultRiskInfo) currentDate k.2)])) := by
  have hprice : bucketForwardPrice forwardPrices
      (dictGetD riskInfoMap k defaultRiskInfo) k =
      (dictGetD riskInfoMap k defaultRiskInfo).price := by
    unfold bucketForwardPrice
    rw [hfp]
    simp
  obtain ⟨h1, h2⟩ := processBucket_eq zScore volatilities riskInfoMap hedges
    forwardPrices currentDate acc k q hdate
  refine ⟨hprice, ?_, ?_, ?_⟩
  · intro hnone
    rw [hprice]
    unfold dictGetD
    rw [hnone]
    rfl
  · rw [h1, hprice]
  · intro hrisk
    rw [h2, hprice, if_pos hrisk]

/-- C10 witness: a zero quote present in the forward dict, risk-info price
    0.7 — the cost contribution uses 0.7, not 0. -/
theorem claim_C10_witness :
    (processBucket 1.645 []
        [(("c1", (⟨2025, 6, 1⟩ : PyDate)), (⟨true, 0.7, 1.0⟩ : RiskInfo))]
        ([] : Dict (String × PyDate) ℝ)
        [(("c1", (⟨2025, 6, 1⟩ : PyDate)), (0 : ℝ))]
        (⟨2025, 6, 1⟩ : PyDate) ([("c1", (0 : ℝ))], [("c1", ([] : List ℝ))])
        (("c1", (⟨2025, 6, 1⟩ : PyDate)), (100 : ℝ))).1 =
      dictSet [("c1", (0 : ℝ))] "c1" (dictGetD [("c1", (0 : ℝ))] "c1" 0 +
        (dictGetD [(("c1", (⟨2025, 6, 1⟩ : PyDate)), (⟨true, 0.7, 1.0⟩ : RiskInfo))]
            ("c1", (⟨2025, 6, 1⟩ : PyDate)) defaultRiskInfo).price *
          |(100 : ℝ) - dictGetD ([] : Dict (String × PyDate) ℝ)
            ("c1", (⟨2025, 6, 1⟩ : PyDate)) 0|) :=
  (claim_C10 1.645 []
    [(("c1", (⟨2025, 6, 1⟩ : PyDate)), (⟨true, 0.7, 1.0⟩ : RiskInfo))]
    ([] : Dict (String × PyDate) ℝ)
    [(("c1", (⟨2025, 6, 1⟩ : PyDate)), (0 : ℝ))]
    (⟨2025, 6, 1⟩ : PyDate) ([("c1", (0 : ℝ))], [("c1", ([] : List ℝ))])
    ("c1", (⟨2025, 6, 1⟩ : PyDate)) 100
    (by simp [dictGet, List.find?]) (by decide)).2.2.1

/-! ## C6: risk-free buckets contribute cost but no VaR -/

theorem mem_dictSet {α β : Type} [DecidableEq α] (d : Dict α β) (k : α) (v : β)
    (kv : α × β) (h : kv ∈ dictSet d k v) : kv = (k, v) ∨ kv ∈ d := by
  induction d with
  | nil =>
    simp only [dictSet, List.mem_singleton] at h
    exact Or.inl h
  | cons a rest ih =>
    by_cases hk : a.1 = k
    · rw [dictSet, if_pos hk] at h
      rcases List.mem_cons.mp h with rfl | hmem
      · exact Or.inl rfl
      · exact Or.inr (List.mem_cons_of_mem a hmem)
    · rw [dictSet, if_neg hk] at h
      rcases List.mem_cons.mp h with rfl | hmem
      · exact Or.inr (List.mem_cons_self kv rest)
      · rcases ih hmem with h1 | h2
        · exact Or.inl h1
        · exact Or.inr (List.mem_cons_of_mem a h2)

theorem dictGetD_eq_default_of_all {α β : Type} [DecidableEq α] (d : Dict α β)
    (v0 : β) (k : α) (h : ∀ kv ∈ d, kv.2 = v0) : dictGetD d k v0 = v0 := by
  unfold dictGetD dictGet
  cases hf : d.find? (fun kv => kv.1 = k) with
  | none => rfl
  | some kv =>
    simp only [Option.map_some', Option.getD_some]
    exact h kv (List.mem_of_find?_eq_some hf)

theorem dictGetD_map_const {α β : Type} [DecidableEq α] (l : List α) (v : β)
    (k : α) : dictGetD (l.map (fun c => (c, v))) k v = v := by
  apply dictGetD_eq_default_of_all
  intro kv hkv
  obtain ⟨c, -, rfl⟩ := List.mem_map.mp hkv
  rfl

theorem foldl_processBucket_no_risk (zScore : ℝ) (volatilities : Dict String ℝ)
    (riskInfoMap : Dict (String × PyDate) RiskInfo)
    (hedges forwardPrices : Dict (String × PyDate) ℝ) (currentDate : PyDate)
    (exposures : Dict (String × PyDate) ℝ)
    (init : Dict String ℝ × Dict String (List ℝ))
    (hall : ∀ e ∈ exposures,
      (dictGetD riskInfoMap e.1 defaultRiskInfo).has_risk = false) :
    (exposures.foldl (processBucket zScore volatilities riskInfoMap hedges
      forwardPrices currentDate) init).2 = init.2 := by
  induction exposures generalizing init with
  | nil => rfl
  | cons e rest ih =>
    rw [List.foldl_cons,
      ih _ (fun x hx => hall x (List.mem_cons_of_mem e hx))]
    have he := hall e (List.mem_cons_self e rest)
    by_cases hd : dateLt e.1.2 currentDate = true
    · unfold processBucket
      simp [hd]
    · have hd' : dateLt e.1.2 currentDate = false := by
        revert hd; cases dateLt e.1.2 currentDate <;> simp
      unfold processBucket
      simp [hd', he]

theorem rollup_zero (commodityNames : Dict String String)
    (bucketCosts : Dict String ℝ) (bucketVarsBy : Dict String (List ℝ))
    (hvb : ∀ cid, dictGetD bucketVarsBy cid [] = ([] : List ℝ))
    (cids : List String) (acc : List ℝ × Dict String ℝ × Dict String ℝ)
    (h1 : ∀ x ∈ acc.1, x = (0 : ℝ)) (h2 : ∀ kv ∈ acc.2.1, kv.2 = (0 : ℝ)) :
    (∀ x ∈ (cids.foldl (rollupStep commodityNames bucketCosts bucketVarsBy) acc).1,
      x = (0 : ℝ)) ∧
    (∀ kv ∈ (cids.foldl (rollupStep commodityNames bucketCosts bucketVarsBy) acc).2.1,
      kv.2 = (0 : ℝ)) := by
  induction cids generalizing acc with
  | nil => exact ⟨h1, h2⟩
  | cons c rest ih =>
    rw [List.foldl_cons]
    apply ih
    · intro x hx
      unfold rollupStep at hx
      rw [hvb c] at hx
      simp only [ne_eq, not_true_eq_false, if_false] at hx
      rcases List.mem_append.mp hx with hmem | hmem
      · exact h1 x hmem
      · simpa using hmem
    · intro kv hkv
      unfold rollupStep at hkv
      rw [hvb c] at hkv
      simp only [ne_eq, not_true_eq_false, if_false] at hkv
      rcases mem_dictSet _ _ _ _ hkv with rfl | hmem
      · rfl
      · exact h2 kv hmem

/-- C6: (a) the risk-info derived from a `fixed`-price purchase has
    `has_risk = false`; (b) a not-yet-delivered bucket whose risk info has
    `has_risk = false` leaves the bucket-VaR accumulator untouched while
    still adding its expected cost `forward_price * |net_exposure|`;
    (c) when every exposure bucket's risk info has `has_risk = false`, the
    timeline point's per-commodity and portfolio VaR are exactly zero. -/
theorem claim_C6 :
    (∀ (referenceDate : PyDate) (b : ExposureBucket) (p : Purchase),
      p.price_type = "fixed" → (rowRiskInfo referenceDate b p).has_risk = false) ∧
    (∀ (zScore : ℝ) (volatilities : Dict String ℝ)
      (riskInfoMap : Dict (String × PyDate) RiskInfo)
      (hedges forwardPrices : Dict (String × PyDate) ℝ) (currentDate : PyDate)
      (acc : Dict String ℝ × Dict String (List ℝ)) (k : String × PyDate) (q : ℝ),
      dateLt k.2 currentDate = false →
      (dictGetD riskInfoMap k defaultRiskInfo).has_risk = false →
      (processBucket zScore volatilities riskInfoMap hedges forwardPrices
          currentDate acc (k, q)).2 = acc.2 ∧
      (processBucket zScore volatilities riskInfoMap hedges forwardPrices
          currentDate acc (k, q)).1 =
        dictSet acc.1 k.1 (dictGetD acc.1 k.1 0 +
          bucketForwardPrice forwardPrices (dictGetD riskInfoMap k defaultRiskInfo) k *
            |q - dictGetD hedges k 0|)) ∧
    (∀ (commodityIds : List String) (commodityNames : Dict String String)
      (zScore : ℝ) (volatilities : Dict String ℝ)
      (correlationMatrix : List (List ℝ))
      (riskInfoMap : Dict (String × PyDate) RiskInfo)
      (hedges forwardPrices : Dict (String × PyDate) ℝ)
      (exposures : Dict (String × PyDate) ℝ) (scenario : String)
      (currentDate : PyDate),
      (∀ e ∈ exposures,
        (dictGetD riskInfoMap e.1 defaultRiskInfo).has_risk = false) →
      (timelinePointAt commodityIds commodityNames zScore volatilities
          correlationMatrix riskInfoMap hedges forwardPrices exposures scenario
          currentDate).var_sugar = 0 ∧
      (timelinePointAt commodityIds commodityNames zScore volatilities
          correlationMatrix riskInfoMap hedges forwardPrices exposures scenario
          currentDate).var_flour = 0 ∧
      (timelinePointAt commodityIds commodityNames zScore volatilities
          correlationMatrix riskInfoMap hedges forwardPrices exposures scenario
          currentDate).var_portfolio = 0) := by
  refine ⟨?_, ?_, ?_⟩
  · intro referenceDate b p hfixed
    simp [rowRiskInfo, hfixed]
  · intro zScore volatilities riskInfoMap hedges forwardPrices currentDate acc k q
      hdate hrisk
    obtain ⟨h1, h2⟩ := processBucket_eq zScore volatilities riskInfoMap hedges
      forwardPrices currentDate acc k q hdate
    rw [hrisk] at h2
    exact ⟨by rw [h2]; simp, h1⟩
  · intro commodityIds commodityNames zScore volatilities correlationMatrix
      riskInfoMap hedges forwardPrices exposures scenario currentDate hall
    have hpass := foldl_processBucket_no_risk zScore volatilities riskInfoMap
      hedges forwardPrices currentDate exposures
      (commodityIds.map (fun c => (c, (0 : ℝ))),
       commodityIds.map (fun c => (c, ([] : List ℝ)))) hall
    have hvb : ∀ cid,
        dictGetD (exposures.foldl (processBucket zScore volatilities riskInfoMap
          hedges forwardPrices currentDate)
          (commodityIds.map (fun c => (c, (0 : ℝ))),
           commodityIds.map (fun c => (c, ([] : List ℝ))))).2 cid [] = ([] : List ℝ) := by
      intro cid
      rw [hpass]
      exact dictGetD_map_const commodityIds [] cid
    have hroll := rollup_zero commodityNames
      (exposures.foldl (processBucket zScore volatilities riskInfoMap hedges
        forwardPrices currentDate)
        (commodityIds.map (fun c => (c, (0 : ℝ))),
         commodityIds.map (fun c => (c, ([] : List ℝ))))).1
      (exposures.foldl (processBucket zScore volatilities riskInfoMap hedges
        forwardPrices currentDate)
        (commodityIds.map (fun c => (c, (0 : ℝ))),
         commodityIds.map (fun c => (c, ([] : List ℝ))))).2
      hvb commodityIds ([], [], []) (by simp) (by simp)
    simp only [timelinePointAt]
    refine ⟨?_, ?_, ?_⟩
    · exact dictGetD_eq_default_of_all _ _ _ hroll.2
    · exact dictGetD_eq_default_of_all _ _ _ hroll.2
    · unfold calculatePortfolioVar
      rw [pyDot_zero_left _ _ hroll.1, Real.sqrt_zero]

/-- C6 witness: a bucket with a no-risk info entry and exposure 100 adds
    cost `0.7 * 100` but no bucket VaR; a single such exposure yields a
    zero VaR timeline point. -/
theorem claim_C6_witness :
    (processBucket 1.645 []
        [(("c1", (⟨2025, 6, 1⟩ : PyDate)), (⟨false, 0.7, 0⟩ : RiskInfo))]
        ([] : Dict (String × PyDate) ℝ) ([] : Dict (String × PyDate) ℝ)
        (⟨2025, 6, 1⟩ : PyDate) ([("c1", (0 : ℝ))], [("c1", ([] : List ℝ))])
        (("c1", (⟨2025, 6, 1⟩ : PyDate)), (100 : ℝ))).2 = [("c1", ([] : List ℝ))] ∧
    (timelinePointAt ["c1"] [("c1", "sugar")] 1.645 [] [[1.0]]
        [(("c1", (⟨2025, 6, 1⟩ : PyDate)), (⟨false, 0.7, 0⟩ : RiskInfo))]
        ([] : Dict (String × PyDate) ℝ) ([] : Dict (String × PyDate) ℝ)
        [(("c1", (⟨2025, 6, 1⟩ : PyDate)), (100 : ℝ))] "without_hedge"
        (⟨2025, 6, 1⟩ : PyDate)).var_portfolio = 0 := by
  have hentry : (dictGetD
      [(("c1", (⟨2025, 6, 1⟩ : PyDate)), (⟨false, 0.7, 0⟩ : RiskInfo))]
      ("c1", (⟨2025, 6, 1⟩ : PyDate)) defaultRiskInfo).has_risk = false := by
    simp [dictGetD, dictGet, List.find?]
  constructor
  · exact ((claim_C6.2.1 1.645 []
      [(("c1", (⟨2025, 6, 1⟩ : PyDate)), (⟨false, 0.7, 0⟩ : RiskInfo))]
      ([] : Dict (String × PyDate) ℝ) ([] : Dict (String × PyDate) ℝ)
      (⟨2025, 6, 1⟩ : PyDate) ([("c1", (0 : ℝ))], [("c1", ([] : List ℝ))])
      ("c1", (⟨2025, 6, 1⟩ : PyDate)) 100 (by decide) hentry).1)
  · exact (claim_C6.2.2 ["c1"] [("c1", "sugar")] 1.645 [] [[1.0]]
      [(("c1", (⟨2025, 6, 1⟩ : PyDate)), (⟨false, 0.7, 0⟩ : RiskInfo))]
      ([] : Dict (String × PyDate) ℝ) ([] : Dict (String × PyDate) ℝ)
      [(("c1", (⟨2025, 6, 1⟩ : PyDate)), (100 : ℝ))] "without_hedge"
      (⟨2025, 6, 1⟩ : PyDate)
      (by
        intro e he
        simp only [List.mem_singleton] at he
        subst he
        exact hentry)).2.2

/-! ## C5 counterexample: the fallback is the purchase price, not the spot -/

/-- One floating-price purchase at purchase price 0.7 delivering in June
    2025. -/
noncomputable def c5Purchase : Purchase :=
  { customer_id := "A", commodity_id := "c1", quantity := 100
    delivery_start_date := ⟨2025, 6, 1⟩, delivery_end_date := ⟨2025, 6, 1⟩
    price_type := "floating", payment_date := some ⟨2025, 9, 1⟩
    purchase_price := 0.7 }

/-- A database snapshot with spot history `[0.8, 0.9]` (most recent spot
    0.9), one exposure bucket of 100 sourced from `c5Purchase`, and no
    forward quote for the bucket's contract month. -/
noncomputable def c5Ctx : TimelineCtx :=
  { commodities := [("c1", "sugar")]
    spotPrices := fun _ => [0.8, 0.9]
    buckets := [(⟨"A", "c1", ⟨2025, 6, 1⟩, 100⟩, some c5Purchase)]
    hedgeItems := []
    forwardQuotes := []
    customer_id := "A" }

/-- C5 counterexample: with no forward quote, a most recent spot of 0.9 and
    a source purchase price of 0.7, the June-2025 timeline point prices the
    bucket at 0.7 — the purchase price — so the expected cost is 70, not
    the 90 the claimed most-recent-spot fallback would give. -/
theorem claim_C5_counterexample :
    (calculateVarTimeline c5Ctx 1.645 ⟨2025, 6, 1⟩ ⟨2025, 6, 1⟩ false
        ⟨2025, 5, 1⟩).map (fun pts => pts.map (fun pt => pt.cost_sugar)) =
      some [(70 : ℝ)] ∧
    (c5Ctx.spotPrices "c1").getLast? = some 0.9 ∧
    c5Ctx.forwardQuotes = [] ∧
    (70 : ℝ) ≠ 0.9 * 100 := by
  refine ⟨?_, rfl, rfl, by norm_num⟩
  norm_num [calculateVarTimeline, c5Ctx, c5Purchase, calculateCorrelationMatrix,
    logReturns, calculateVolatilities, volatilityOfPrices, timelineLoop,
    timelinePointAt, processBucket, rollupStep, getExposuresByBucket,
    getPurchaseRiskInfo, riskStep, rowRiskInfo, bucketInRange, bucketKey,
    getForwardPrices, getHedgeQuantities, bucketForwardPrice, dictGetD, dictGet,
    dictSet, dateLe, dateLt, monthIndex, defaultRiskInfo, nextMonth, List.find?]

end Findemo
